import Mathlib

/-!
# BlockServerMeasured (libkbfs/bserver_measured.go)

A shallow embedding of the measuring decorator for block servers.  Go code that
mutates state is written in state-passing style: a method of an interface value
is a function from the program state to its results and the next program state.

The block-server interface and the value types it mentions are declared
elsewhere in the package; the metrics registry and its timers belong to the
go-metrics library.  Both are described below only as far as the decorator
uses them.
-/

namespace Libkbfs

/-! ## Value types handed through unchanged -/

/-- Modelled from the spec: the cancellation context of the standard library,
which the decorator only forwards; an opaque value here. -/
structure Context where
  id : Nat
deriving DecidableEq, Repr

/-- Modelled from the spec: BlockIdentifier, an opaque value type whose Go
declaration is outside this file. -/
structure IFCERFTBlockID where
  id : Nat
deriving DecidableEq, Repr

/-- Modelled from the spec: NamespaceIdentifier (the top-level-folder id), an
opaque value type whose Go declaration is outside this file. -/
structure IFCERFTTlfID where
  id : Nat
deriving DecidableEq, Repr

/-- Modelled from the spec: BlockContext, an opaque value type whose Go
declaration is outside this file. -/
structure IFCERFTBlockContext where
  id : Nat
deriving DecidableEq, Repr

/-- Modelled from the spec: ServerHalfKey, an opaque value type whose Go
declaration is outside this file.  The Go zero value is the all-zero key,
written as key 0. -/
structure IFCERFTBlockCryptKeyServerHalf where
  key : Nat
deriving DecidableEq, Repr

/-- Modelled from the spec: the quota and usage information returned by
GetUserQuotaInfo, an opaque value type whose Go declaration is outside this
file. -/
structure IFCERFTUserQuotaInfo where
  id : Nat
deriving DecidableEq, Repr

/-- A Go byte slice; none is the nil slice. -/
abbrev ByteSlice := Option (List Nat)

/-- A Go error value; none is the nil error. -/
abbrev GoError := Option String

/-- The map from block ids to block contexts taken by RemoveBlockReference and
ArchiveBlockReferences; none is the nil map. -/
abbrev ContextMap := Option (List (IFCERFTBlockID × List IFCERFTBlockContext))

/-- The map from block ids to live reference counts; none is the nil map. -/
abbrev LiveCounts := Option (List (IFCERFTBlockID × Int))

/-! ## The block-server interface -/

/-- Modelled from the spec: the block-storage contract of section 4.1.  The Go
interface declaration is outside this file; the method names, argument order
and results are those with which BlockServerMeasured calls its delegate and
implements the interface itself.  The parameter S is the program state a
method may read and change. -/
structure IFCERFTBlockServer (S : Type) where
  Get : Context → IFCERFTBlockID → IFCERFTTlfID → IFCERFTBlockContext → S →
    (ByteSlice × IFCERFTBlockCryptKeyServerHalf × GoError) × S
  Put : Context → IFCERFTBlockID → IFCERFTTlfID → IFCERFTBlockContext → ByteSlice →
    IFCERFTBlockCryptKeyServerHalf → S → GoError × S
  AddBlockReference : Context → IFCERFTBlockID → IFCERFTTlfID → IFCERFTBlockContext → S →
    GoError × S
  RemoveBlockReference : Context → IFCERFTTlfID → ContextMap → S → (LiveCounts × GoError) × S
  ArchiveBlockReferences : Context → IFCERFTTlfID → ContextMap → S → GoError × S
  Shutdown : S → S
  RefreshAuthToken : Context → S → S
  GetUserQuotaInfo : Context → S → (Option IFCERFTUserQuotaInfo × GoError) × S

/-! ## The metrics library, as far as the decorator uses it -/

/-- Modelled from the spec: the Timer of section 3, an accumulator of samples
owned by the registry.  Timer is an interface of the metrics library, so a
registry may hold any implementation of it.  What an
implementation does when Time is called with a function is described here by
how often it runs that function (runs) and how many samples it records
afterwards (records).  The field count is the number of samples recorded so
far. -/
structure Timer where
  runs : Nat
  records : Nat
  count : Nat
deriving DecidableEq, Repr

/-- A fresh standard timer of the library: Time takes the clock, runs the
function once and then records the elapsed time as one sample. -/
def StandardTimer : Timer := { runs := 1, records := 1, count := 0 }

/-- The no-op timer of the library: the body of its Time method is empty, so it
neither runs the function nor records anything, and its count is always
zero. -/
def NilTimer : Timer := { runs := 0, records := 0, count := 0 }

/-- The timer constructor of the library: the no-op timer when nil metrics are
switched on, a fresh standard timer otherwise. -/
def NewTimer (useNilMetrics : Bool) : Timer :=
  if useNilMetrics then NilTimer else StandardTimer

/-- Modelled from the spec: the MetricsRegistry of section 3, a mapping from
timer names to timers.  It is a metrics registry restricted to its timers: the named timer objects in
registration order.  Every name owns its timer object, and a timer instance is
identified by its position in this list.  Metrics of other kinds are left out.
UseNilMetrics is the switch of the library that is read when a timer has to be
created; it is kept with the registry because only registration reads it. -/
structure Registry where
  UseNilMetrics : Bool
  entries : List (String × Timer)
deriving DecidableEq, Repr

/-- A reference to a timer instance: its position in the registry. -/
abbrev TimerRef := Nat

/-- Position of the first entry registered under a name. -/
def findTimer (name : String) : List (String × Timer) → Option TimerRef
  | [] => none
  | e :: es => if e.1 = name then some 0 else (findTimer name es).map Nat.succ

/-- Modelled from the spec: getOrRegisterTimer of section 6, which is
idempotent: the timer already registered under the name if there is one,
otherwise a new timer that is registered under the name. -/
def GetOrRegisterTimer (name : String) (r : Registry) : TimerRef × Registry :=
  match findTimer name r.entries with
  | some t => (t, r)
  | none =>
    (r.entries.length, { r with entries := r.entries ++ [(name, NewTimer r.UseNilMetrics)] })

/-- Add n samples to the timer at position t; other entries are untouched. -/
def addSamples (n : Nat) : TimerRef → List (String × Timer) → List (String × Timer)
  | _, [] => []
  | 0, e :: es => (e.1, { e.2 with count := e.2.count + n }) :: es
  | t + 1, e :: es => e :: addSamples n t es

/-- The registry after the timer at position t has recorded n samples. -/
def Registry.record (r : Registry) (t : TimerRef) (n : Nat) : Registry :=
  { r with entries := addSamples n t r.entries }

/-- Sample count of the timer at position t (zero when there is none). -/
def Registry.count (r : Registry) (t : TimerRef) : Nat :=
  match r.entries[t]? with
  | some e => e.2.count
  | none => 0

/-- Sample count of the timer registered under a name (zero when there is
none). -/
def Registry.countOf (r : Registry) (name : String) : Nat :=
  match findTimer name r.entries with
  | some t => r.count t
  | none => 0

/-- The names registered in a registry. -/
def Registry.names (r : Registry) : List String := r.entries.map Prod.fst

/-- The program state: the state reachable through the delegate, and the
metrics registry. -/
structure World (σ : Type) where
  server : σ
  metrics : Registry
deriving DecidableEq, Repr

/-- Modelled from the spec: TimerHandle.time of section 6, for the timer at
position t.  The timed function acts on the
variables L it captures and on the program state; the timer runs it as often
as its implementation does and then records its samples.  A reference to no
timer does nothing. -/
def Time {L σ : Type} (t : TimerRef) (f : L × World σ → L × World σ) (x : L × World σ) :
    L × World σ :=
  match x.2.metrics.entries[t]? with
  | none => x
  | some e =>
    let y := Nat.iterate f e.2.runs x
    (y.1, { y.2 with metrics := y.2.metrics.record t e.2.records })

/-! ## BlockServerMeasured -/

/-- BlockServerMeasured delegates to another block server but also keeps track
of stats. -/
structure BlockServerMeasured (σ : Type) where
  delegate : IFCERFTBlockServer (World σ)
  getTimer : TimerRef
  putTimer : TimerRef
  addBlockReferenceTimer : TimerRef
  removeBlockReferenceTimer : TimerRef
  archiveBlockReferencesTimer : TimerRef

/-- NewBlockServerMeasured creates a new BlockServerMeasured with the given
delegate and registry; the second component is the registry afterwards. -/
def NewBlockServerMeasured {σ : Type} (delegate : IFCERFTBlockServer (World σ)) (r : Registry) :
    BlockServerMeasured σ × Registry :=
  let g := GetOrRegisterTimer "BlockServer.Get" r
  let p := GetOrRegisterTimer "BlockServer.Put" g.2
  let a := GetOrRegisterTimer "BlockServer.AddBlockReference" p.2
  let rm := GetOrRegisterTimer "BlockServer.RemoveBlockReference" a.2
  let ar := GetOrRegisterTimer "BlockServer.ArchiveBlockReferences" rm.2
  ({ delegate := delegate
     getTimer := g.1
     putTimer := p.1
     addBlockReferenceTimer := a.1
     removeBlockReferenceTimer := rm.1
     archiveBlockReferencesTimer := ar.1 }, ar.2)

namespace BlockServerMeasured

/-- Get: the named results start at their zero values, the timed function
assigns them from the delegate, and they are returned. -/
def Get {σ : Type} (b : BlockServerMeasured σ) (ctx : Context) (id : IFCERFTBlockID) (tlfID : IFCERFTTlfID)
    (context : IFCERFTBlockContext) (w : World σ) :
    (ByteSlice × IFCERFTBlockCryptKeyServerHalf × GoError) × World σ :=
  Time b.getTimer (fun x => b.delegate.Get ctx id tlfID context x.2)
    ((none, { key := 0 }, none), w)

/-- Put, timed by putTimer. -/
def Put {σ : Type} (b : BlockServerMeasured σ) (ctx : Context) (id : IFCERFTBlockID) (tlfID : IFCERFTTlfID)
    (context : IFCERFTBlockContext) (buf : ByteSlice)
    (serverHalf : IFCERFTBlockCryptKeyServerHalf) (w : World σ) : GoError × World σ :=
  Time b.putTimer (fun x => b.delegate.Put ctx id tlfID context buf serverHalf x.2) (none, w)

/-- AddBlockReference, timed by addBlockReferenceTimer. -/
def AddBlockReference {σ : Type} (b : BlockServerMeasured σ) (ctx : Context) (id : IFCERFTBlockID)
    (tlfID : IFCERFTTlfID) (context : IFCERFTBlockContext) (w : World σ) : GoError × World σ :=
  Time b.addBlockReferenceTimer
    (fun x => b.delegate.AddBlockReference ctx id tlfID context x.2) (none, w)

/-- RemoveBlockReference, timed by removeBlockReferenceTimer. -/
def RemoveBlockReference {σ : Type} (b : BlockServerMeasured σ) (ctx : Context) (tlfID : IFCERFTTlfID)
    (contexts : ContextMap) (w : World σ) : (LiveCounts × GoError) × World σ :=
  Time b.removeBlockReferenceTimer
    (fun x => b.delegate.RemoveBlockReference ctx tlfID contexts x.2) ((none, none), w)

/-- ArchiveBlockReferences, timed by archiveBlockReferencesTimer. -/
def ArchiveBlockReferences {σ : Type} (b : BlockServerMeasured σ) (ctx : Context) (tlfID : IFCERFTTlfID)
    (contexts : ContextMap) (w : World σ) : GoError × World σ :=
  Time b.archiveBlockReferencesTimer
    (fun x => b.delegate.ArchiveBlockReferences ctx tlfID contexts x.2) (none, w)

/-- Shutdown forwards to the delegate. -/
def Shutdown {σ : Type} (b : BlockServerMeasured σ) (w : World σ) : World σ :=
  b.delegate.Shutdown w

/-- RefreshAuthToken forwards to the delegate. -/
def RefreshAuthToken {σ : Type} (b : BlockServerMeasured σ) (ctx : Context) (w : World σ) : World σ :=
  b.delegate.RefreshAuthToken ctx w

/-- GetUserQuotaInfo returns what the delegate returns. -/
def GetUserQuotaInfo {σ : Type} (b : BlockServerMeasured σ) (ctx : Context) (w : World σ) :
    (Option IFCERFTUserQuotaInfo × GoError) × World σ :=
  b.delegate.GetUserQuotaInfo ctx w

/-- BlockServerMeasured implements the block-server interface, so a decorator
can be the delegate of another one. -/
def toBlockServer {σ : Type} (b : BlockServerMeasured σ) : IFCERFTBlockServer (World σ) where
  Get := b.Get
  Put := b.Put
  AddBlockReference := b.AddBlockReference
  RemoveBlockReference := b.RemoveBlockReference
  ArchiveBlockReferences := b.ArchiveBlockReferences
  Shutdown := b.Shutdown
  RefreshAuthToken := b.RefreshAuthToken
  GetUserQuotaInfo := b.GetUserQuotaInfo

end BlockServerMeasured

/-! ## Uniform view of the interface -/

/-- The five measured operations. -/
inductive Operation
  | Get
  | Put
  | AddBlockReference
  | RemoveBlockReference
  | ArchiveBlockReferences
deriving DecidableEq, Repr

/-- The name NewBlockServerMeasured passes to GetOrRegisterTimer for an
operation. -/
def Operation.timerName : Operation → String
  | .Get => "BlockServer.Get"
  | .Put => "BlockServer.Put"
  | .AddBlockReference => "BlockServer.AddBlockReference"
  | .RemoveBlockReference => "BlockServer.RemoveBlockReference"
  | .ArchiveBlockReferences => "BlockServer.ArchiveBlockReferences"

/-- The timer field of the decorator that its method for an operation uses. -/
def BlockServerMeasured.timer {σ : Type} (b : BlockServerMeasured σ) : Operation → TimerRef
  | .Get => b.getTimer
  | .Put => b.putTimer
  | .AddBlockReference => b.addBlockReferenceTimer
  | .RemoveBlockReference => b.removeBlockReferenceTimer
  | .ArchiveBlockReferences => b.archiveBlockReferencesTimer

/-- One call of an interface method, with the arguments in the order of the
method signature. -/
inductive Request
  | Get (ctx : Context) (id : IFCERFTBlockID) (tlfID : IFCERFTTlfID)
      (context : IFCERFTBlockContext)
  | Put (ctx : Context) (id : IFCERFTBlockID) (tlfID : IFCERFTTlfID)
      (context : IFCERFTBlockContext) (buf : ByteSlice)
      (serverHalf : IFCERFTBlockCryptKeyServerHalf)
  | AddBlockReference (ctx : Context) (id : IFCERFTBlockID) (tlfID : IFCERFTTlfID)
      (context : IFCERFTBlockContext)
  | RemoveBlockReference (ctx : Context) (tlfID : IFCERFTTlfID) (contexts : ContextMap)
  | ArchiveBlockReferences (ctx : Context) (tlfID : IFCERFTTlfID) (contexts : ContextMap)
  | Shutdown
  | RefreshAuthToken (ctx : Context)
  | GetUserQuotaInfo (ctx : Context)
deriving DecidableEq, Repr

/-- What a call returns to its caller. -/
inductive Reply
  | Get (buf : ByteSlice) (serverHalf : IFCERFTBlockCryptKeyServerHalf) (err : GoError)
  | Put (err : GoError)
  | AddBlockReference (err : GoError)
  | RemoveBlockReference (liveCounts : LiveCounts) (err : GoError)
  | ArchiveBlockReferences (err : GoError)
  | Shutdown
  | RefreshAuthToken
  | GetUserQuotaInfo (info : Option IFCERFTUserQuotaInfo) (err : GoError)
deriving DecidableEq, Repr

/-- The measured operation a request belongs to; none for Shutdown,
RefreshAuthToken and GetUserQuotaInfo. -/
def Request.operation : Request → Option Operation
  | .Get .. => some .Get
  | .Put .. => some .Put
  | .AddBlockReference .. => some .AddBlockReference
  | .RemoveBlockReference .. => some .RemoveBlockReference
  | .ArchiveBlockReferences .. => some .ArchiveBlockReferences
  | .Shutdown => none
  | .RefreshAuthToken _ => none
  | .GetUserQuotaInfo _ => none

/-- Call the method a request names on a block server. -/
def IFCERFTBlockServer.invoke {S : Type} (d : IFCERFTBlockServer S) : Request → S → Reply × S
  | .Get ctx id tlfID context, s =>
    let out := d.Get ctx id tlfID context s
    (.Get out.1.1 out.1.2.1 out.1.2.2, out.2)
  | .Put ctx id tlfID context buf serverHalf, s =>
    let out := d.Put ctx id tlfID context buf serverHalf s
    (.Put out.1, out.2)
  | .AddBlockReference ctx id tlfID context, s =>
    let out := d.AddBlockReference ctx id tlfID context s
    (.AddBlockReference out.1, out.2)
  | .RemoveBlockReference ctx tlfID contexts, s =>
    let out := d.RemoveBlockReference ctx tlfID contexts s
    (.RemoveBlockReference out.1.1 out.1.2, out.2)
  | .ArchiveBlockReferences ctx tlfID contexts, s =>
    let out := d.ArchiveBlockReferences ctx tlfID contexts s
    (.ArchiveBlockReferences out.1, out.2)
  | .Shutdown, s => (.Shutdown, d.Shutdown s)
  | .RefreshAuthToken ctx, s => (.RefreshAuthToken, d.RefreshAuthToken ctx s)
  | .GetUserQuotaInfo ctx, s =>
    let out := d.GetUserQuotaInfo ctx s
    (.GetUserQuotaInfo out.1.1 out.1.2, out.2)

/-- Call the method a request names on the decorator. -/
def BlockServerMeasured.invoke {σ : Type} (b : BlockServerMeasured σ) :
    Request → World σ → Reply × World σ :=
  b.toBlockServer.invoke

/-! ## Delegates -/

/-- A block server whose methods act on a state σ of their own, placed in the
program state: every method works on the server component and leaves the
registry alone. -/
def IFCERFTBlockServer.standalone {σ : Type} (d : IFCERFTBlockServer σ) :
    IFCERFTBlockServer (World σ) where
  Get := fun ctx id tlfID context w =>
    ((d.Get ctx id tlfID context w.server).1,
      { w with server := (d.Get ctx id tlfID context w.server).2 })
  Put := fun ctx id tlfID context buf serverHalf w =>
    ((d.Put ctx id tlfID context buf serverHalf w.server).1,
      { w with server := (d.Put ctx id tlfID context buf serverHalf w.server).2 })
  AddBlockReference := fun ctx id tlfID context w =>
    ((d.AddBlockReference ctx id tlfID context w.server).1,
      { w with server := (d.AddBlockReference ctx id tlfID context w.server).2 })
  RemoveBlockReference := fun ctx tlfID contexts w =>
    ((d.RemoveBlockReference ctx tlfID contexts w.server).1,
      { w with server := (d.RemoveBlockReference ctx tlfID contexts w.server).2 })
  ArchiveBlockReferences := fun ctx tlfID contexts w =>
    ((d.ArchiveBlockReferences ctx tlfID contexts w.server).1,
      { w with server := (d.ArchiveBlockReferences ctx tlfID contexts w.server).2 })
  Shutdown := fun w => { w with server := d.Shutdown w.server }
  RefreshAuthToken := fun ctx w => { w with server := d.RefreshAuthToken ctx w.server }
  GetUserQuotaInfo := fun ctx w =>
    ((d.GetUserQuotaInfo ctx w.server).1,
      { w with server := (d.GetUserQuotaInfo ctx w.server).2 })

/-- A block server that keeps a log of the calls it receives: every method
appends its own request, with the arguments it was given, to the log and then
does what d does. -/
def IFCERFTBlockServer.logged {σ : Type} (d : IFCERFTBlockServer σ) :
    IFCERFTBlockServer (σ × List Request) where
  Get := fun ctx id tlfID context s =>
    ((d.Get ctx id tlfID context s.1).1,
      ((d.Get ctx id tlfID context s.1).2, s.2 ++ [.Get ctx id tlfID context]))
  Put := fun ctx id tlfID context buf serverHalf s =>
    ((d.Put ctx id tlfID context buf serverHalf s.1).1,
      ((d.Put ctx id tlfID context buf serverHalf s.1).2,
        s.2 ++ [.Put ctx id tlfID context buf serverHalf]))
  AddBlockReference := fun ctx id tlfID context s =>
    ((d.AddBlockReference ctx id tlfID context s.1).1,
      ((d.AddBlockReference ctx id tlfID context s.1).2,
        s.2 ++ [.AddBlockReference ctx id tlfID context]))
  RemoveBlockReference := fun ctx tlfID contexts s =>
    ((d.RemoveBlockReference ctx tlfID contexts s.1).1,
      ((d.RemoveBlockReference ctx tlfID contexts s.1).2,
        s.2 ++ [.RemoveBlockReference ctx tlfID contexts]))
  ArchiveBlockReferences := fun ctx tlfID contexts s =>
    ((d.ArchiveBlockReferences ctx tlfID contexts s.1).1,
      ((d.ArchiveBlockReferences ctx tlfID contexts s.1).2,
        s.2 ++ [.ArchiveBlockReferences ctx tlfID contexts]))
  Shutdown := fun s => (d.Shutdown s.1, s.2 ++ [.Shutdown])
  RefreshAuthToken := fun ctx s => (d.RefreshAuthToken ctx s.1, s.2 ++ [.RefreshAuthToken ctx])
  GetUserQuotaInfo := fun ctx s =>
    ((d.GetUserQuotaInfo ctx s.1).1,
      ((d.GetUserQuotaInfo ctx s.1).2, s.2 ++ [.GetUserQuotaInfo ctx]))

/-- A fake block server for concrete runs.  Its state counts the calls it has
served.  It holds one block: Get of block 1 in folder 1 with context 1 returns
the bytes of abc and key 7; any other Get, and every Put, fails with
ErrBlockNotFound.  RemoveBlockReference reports block 1 with no live
references. -/
def fakeServer : IFCERFTBlockServer Nat where
  Get := fun _ id tlfID context n =>
    if id = ⟨1⟩ ∧ tlfID = ⟨1⟩ ∧ context = ⟨1⟩ then
      ((some [97, 98, 99], ⟨7⟩, none), n + 1)
    else ((none, ⟨0⟩, some "ErrBlockNotFound"), n + 1)
  Put := fun _ _ _ _ _ _ n => (some "ErrBlockNotFound", n + 1)
  AddBlockReference := fun _ _ _ _ n => (none, n + 1)
  RemoveBlockReference := fun _ _ _ n => ((some [(⟨1⟩, 0)], none), n + 1)
  ArchiveBlockReferences := fun _ _ _ n => (none, n + 1)
  Shutdown := fun n => n + 1
  RefreshAuthToken := fun _ n => n + 1
  GetUserQuotaInfo := fun _ n => ((some ⟨5⟩, none), n + 1)

/-- An empty registry that creates standard timers. -/
def emptyRegistry : Registry := { UseNilMetrics := false, entries := [] }

/-- An empty registry of a process that runs with nil metrics switched on. -/
def nilRegistry : Registry := { UseNilMetrics := true, entries := [] }

/-- A registry in which the name BlockServer.Put is already bound to a timer
that runs the timed function twice in each Time call. -/
def eagerRegistry : Registry :=
  { UseNilMetrics := false
    entries := [("BlockServer.Put", { runs := 2, records := 1, count := 0 })] }

/-- A registry, with nil metrics switched on, in which the name BlockServer.Get
is already bound to a timer that runs the timed function once but never
records a sample. -/
def silentRegistry : Registry :=
  { UseNilMetrics := true
    entries := [("BlockServer.Get", { runs := 1, records := 0, count := 0 })] }

/-- The timer at position t runs the timed function exactly once in each Time
call. -/
def Registry.RunsOnceAt (r : Registry) (t : TimerRef) : Prop :=
  ∃ e, r.entries[t]? = some e ∧ e.2.runs = 1

/-- The timer at position t records exactly one sample in each Time call. -/
def Registry.RecordsOneAt (r : Registry) (t : TimerRef) : Prop :=
  ∃ e, r.entries[t]? = some e ∧ e.2.records = 1

/-- Every timer of the registry runs the timed function exactly once in each
Time call. -/
def Registry.RunsOnce (r : Registry) : Prop :=
  ∀ e ∈ r.entries, e.2.runs = 1

instance (r : Registry) : Decidable r.RunsOnce :=
  inferInstanceAs (Decidable (∀ e ∈ r.entries, e.2.runs = 1))

/-- The five timer names, in the order NewBlockServerMeasured asks for them. -/
def timerNames : List String :=
  ["BlockServer.Get", "BlockServer.Put", "BlockServer.AddBlockReference",
    "BlockServer.RemoveBlockReference", "BlockServer.ArchiveBlockReferences"]

/-- Registry r2 is r1 with further entries at the end, every one of them a
newly created timer under one of the five names, which was not registered in
r1. -/
def Registry.ExtendedBy (r1 r2 : Registry) : Prop :=
  ∃ fs, r2.entries = r1.entries ++ fs ∧ r2.UseNilMetrics = r1.UseNilMetrics ∧
    ∀ e ∈ fs, e.1 ∈ timerNames ∧ e.1 ∉ r1.names ∧ e.2 = NewTimer r1.UseNilMetrics

/-! ## The registry -/

theorem findTimer_isSome_get (name : String) :
    ∀ (es : List (String × Timer)) (t : TimerRef), findTimer name es = some t →
      ∃ e, es[t]? = some e ∧ e.1 = name := by
  intro es
  induction es with
  | nil => intro t h; simp [findTimer] at h
  | cons e es ih =>
    intro t h
    unfold findTimer at h
    by_cases he : e.1 = name
    · simp [he] at h
      subst h
      exact ⟨e, by simp, he⟩
    · simp [he] at h
      obtain ⟨a, ha, rfl⟩ := h
      obtain ⟨e2, h1, h2⟩ := ih a ha
      exact ⟨e2, by simpa using h1, h2⟩

theorem findTimer_eq_none (name : String) :
    ∀ (es : List (String × Timer)), findTimer name es = none ↔ name ∉ es.map Prod.fst := by
  intro es
  induction es with
  | nil => simp [findTimer]
  | cons e es ih =>
    unfold findTimer
    by_cases he : e.1 = name
    · simp [he]
    · have hne : ¬ name = e.1 := fun h => he h.symm
      simp [he, hne, ih]

theorem findTimer_append_of_some (name : String) (fs : List (String × Timer)) :
    ∀ (es : List (String × Timer)) (t : TimerRef), findTimer name es = some t →
      findTimer name (es ++ fs) = some t := by
  intro es
  induction es with
  | nil => intro t h; simp [findTimer] at h
  | cons e es ih =>
    intro t h
    simp only [List.cons_append]
    unfold findTimer at h ⊢
    by_cases he : e.1 = name
    · simpa [he] using h
    · simp [he] at h ⊢
      obtain ⟨a, ha, rfl⟩ := h
      exact ⟨a, ih a ha, rfl⟩

theorem findTimer_append_self (name : String) (tm : Timer) :
    ∀ (es : List (String × Timer)), findTimer name es = none →
      findTimer name (es ++ [(name, tm)]) = some es.length := by
  intro es
  induction es with
  | nil => intro _; simp [findTimer]
  | cons e es ih =>
    intro h
    simp only [List.cons_append]
    unfold findTimer at h ⊢
    by_cases he : e.1 = name
    · simp [he] at h
    · simp [he] at h ⊢
      exact ih h

theorem findTimer_addSamples (name : String) (n : Nat) :
    ∀ (es : List (String × Timer)) (t : TimerRef),
      findTimer name (addSamples n t es) = findTimer name es := by
  intro es
  induction es with
  | nil => intro t; simp [addSamples]
  | cons e es ih =>
    intro t
    cases t with
    | zero => simp [addSamples, findTimer]
    | succ t => simp [addSamples, findTimer, ih t]

theorem getElem?_addSamples_ne (n : Nat) :
    ∀ (es : List (String × Timer)) (t i : TimerRef), t ≠ i →
      (addSamples n t es)[i]? = es[i]? := by
  intro es
  induction es with
  | nil => intro t i _; simp [addSamples]
  | cons e es ih =>
    intro t i hti
    cases t with
    | zero =>
      cases i with
      | zero => exact absurd rfl hti
      | succ i => simp [addSamples]
    | succ t =>
      cases i with
      | zero => simp [addSamples]
      | succ i =>
        have : t ≠ i := fun h => hti (by rw [h])
        simpa [addSamples] using ih t i this

theorem getElem?_addSamples_self (n : Nat) :
    ∀ (es : List (String × Timer)) (t : TimerRef) (e : String × Timer), es[t]? = some e →
      (addSamples n t es)[t]? = some (e.1, { e.2 with count := e.2.count + n }) := by
  intro es
  induction es with
  | nil => intro t e h; simp at h
  | cons e0 es ih =>
    intro t e h
    cases t with
    | zero =>
      simp at h
      subst h
      simp [addSamples]
    | succ t =>
      simp at h
      simpa [addSamples] using ih t e h

theorem count_record_ne (r : Registry) (t i : TimerRef) (n : Nat) (h : t ≠ i) :
    (r.record t n).count i = r.count i := by
  simp [Registry.count, Registry.record, getElem?_addSamples_ne n r.entries t i h]

theorem count_record_self (r : Registry) (t : TimerRef) (n : Nat) (e : String × Timer)
    (h : r.entries[t]? = some e) : (r.record t n).count t = r.count t + n := by
  simp [Registry.count, Registry.record, getElem?_addSamples_self n r.entries t e h, h]

theorem getOrRegister_of_found (name : String) (r : Registry) (t : TimerRef)
    (h : findTimer name r.entries = some t) : GetOrRegisterTimer name r = (t, r) := by
  simp [GetOrRegisterTimer, h]

theorem getOrRegister_find (name : String) (r : Registry) :
    findTimer name (GetOrRegisterTimer name r).2.entries = some (GetOrRegisterTimer name r).1 := by
  unfold GetOrRegisterTimer
  cases h : findTimer name r.entries with
  | some t => simpa using h
  | none => simpa using findTimer_append_self name _ r.entries h

theorem getOrRegister_keeps (name m : String) (r : Registry) (i : TimerRef)
    (h : findTimer m r.entries = some i) :
    findTimer m (GetOrRegisterTimer name r).2.entries = some i := by
  unfold GetOrRegisterTimer
  cases hn : findTimer name r.entries with
  | some t => simpa using h
  | none => simpa using findTimer_append_of_some m _ r.entries i h

theorem getOrRegister_step (name : String) (r : Registry) :
    ∃ fs, (GetOrRegisterTimer name r).2.entries = r.entries ++ fs ∧
      (GetOrRegisterTimer name r).2.UseNilMetrics = r.UseNilMetrics ∧
      ∀ e ∈ fs, e.1 = name ∧ name ∉ r.names ∧ e.2 = NewTimer r.UseNilMetrics := by
  unfold GetOrRegisterTimer
  cases hn : findTimer name r.entries with
  | some t => exact ⟨[], by simp, rfl, by simp⟩
  | none =>
    refine ⟨[(name, NewTimer r.UseNilMetrics)], rfl, rfl, ?_⟩
    intro e he
    simp at he
    subst he
    exact ⟨rfl, (findTimer_eq_none name r.entries).1 hn, rfl⟩

theorem getOrRegister_names (name m : String) (r : Registry) :
    m ∈ (GetOrRegisterTimer name r).2.names ↔ m ∈ r.names ∨ m = name := by
  unfold GetOrRegisterTimer
  cases hn : findTimer name r.entries with
  | some t =>
    obtain ⟨e, he, hname⟩ := findTimer_isSome_get name r.entries t hn
    have hmem : name ∈ r.names := by
      simp only [Registry.names, List.mem_map]
      exact ⟨e, List.getElem?_mem he, hname⟩
    constructor
    · intro h; exact Or.inl h
    · rintro (h | h)
      · exact h
      · rw [h]; exact hmem
  | none => simp [Registry.names]

/-! ## Construction -/

theorem extendedBy_refl (r : Registry) : r.ExtendedBy r :=
  ⟨[], by simp, rfl, by simp⟩

theorem extendedBy_step (name : String) (hname : name ∈ timerNames) (r r1 : Registry)
    (h : r.ExtendedBy r1) : r.ExtendedBy (GetOrRegisterTimer name r1).2 := by
  obtain ⟨fs, hfs, hflag, hall⟩ := h
  obtain ⟨gs, hgs, gflag, gall⟩ := getOrRegister_step name r1
  refine ⟨fs ++ gs, by rw [hgs, hfs, List.append_assoc], by rw [gflag, hflag], ?_⟩
  intro e he
  rcases List.mem_append.1 he with h1 | h2
  · exact hall e h1
  · obtain ⟨g1, g2, g3⟩ := gall e h2
    refine ⟨by rw [g1]; exact hname, ?_, by rw [g3, hflag]⟩
    intro hmem
    apply g2
    rw [← g1]
    simp only [Registry.names, hfs, List.map_append, List.mem_append]
    exact Or.inl hmem

theorem new_extendedBy {σ : Type} (d : IFCERFTBlockServer (World σ)) (r : Registry) :
    r.ExtendedBy (NewBlockServerMeasured d r).2 := by
  have h0 := extendedBy_refl r
  have h1 := extendedBy_step "BlockServer.Get" (by simp [timerNames]) r _ h0
  have h2 := extendedBy_step "BlockServer.Put" (by simp [timerNames]) r _ h1
  have h3 := extendedBy_step "BlockServer.AddBlockReference" (by simp [timerNames]) r _ h2
  have h4 := extendedBy_step "BlockServer.RemoveBlockReference" (by simp [timerNames]) r _ h3
  exact extendedBy_step "BlockServer.ArchiveBlockReferences" (by simp [timerNames]) r _ h4

theorem new_names {σ : Type} (d : IFCERFTBlockServer (World σ)) (r : Registry) (m : String) :
    m ∈ (NewBlockServerMeasured d r).2.names ↔ m ∈ r.names ∨ m ∈ timerNames := by
  simp only [NewBlockServerMeasured, getOrRegister_names, timerNames, List.mem_cons,
    List.mem_singleton, List.not_mem_nil, or_false, or_assoc]

theorem new_timer_find {σ : Type} (d : IFCERFTBlockServer (World σ)) (r : Registry)
    (op : Operation) :
    findTimer op.timerName (NewBlockServerMeasured d r).2.entries =
      some ((NewBlockServerMeasured d r).1.timer op) := by
  cases op
  · exact getOrRegister_keeps _ _ _ _ (getOrRegister_keeps _ _ _ _
      (getOrRegister_keeps _ _ _ _ (getOrRegister_keeps _ _ _ _ (getOrRegister_find _ _))))
  · exact getOrRegister_keeps _ _ _ _ (getOrRegister_keeps _ _ _ _
      (getOrRegister_keeps _ _ _ _ (getOrRegister_find _ _)))
  · exact getOrRegister_keeps _ _ _ _ (getOrRegister_keeps _ _ _ _ (getOrRegister_find _ _))
  · exact getOrRegister_keeps _ _ _ _ (getOrRegister_find _ _)
  · exact getOrRegister_find _ _

theorem new_timer_entry {σ : Type} (d : IFCERFTBlockServer (World σ)) (r : Registry)
    (op : Operation) :
    ∃ e, (NewBlockServerMeasured d r).2.entries[(NewBlockServerMeasured d r).1.timer op]? = some e ∧
      e.1 = op.timerName :=
  findTimer_isSome_get _ _ _ (new_timer_find d r op)

theorem timerName_injective (op1 op2 : Operation) (h : op1.timerName = op2.timerName) :
    op1 = op2 := by
  cases op1 <;> cases op2 <;> first | rfl | (exact absurd h (by decide))

theorem new_timer_injective {σ : Type} (d : IFCERFTBlockServer (World σ)) (r : Registry)
    (op1 op2 : Operation)
    (h : (NewBlockServerMeasured d r).1.timer op1 = (NewBlockServerMeasured d r).1.timer op2) :
    op1 = op2 := by
  obtain ⟨e1, h1, n1⟩ := new_timer_entry d r op1
  obtain ⟨e2, h2, n2⟩ := new_timer_entry d r op2
  rw [h, h2] at h1
  have : e2 = e1 := by simpa using h1
  apply timerName_injective
  rw [← n1, ← n2, this]

theorem new_of_found {σ : Type} (d : IFCERFTBlockServer (World σ)) (r : Registry)
    (tg tp ta trm tar : TimerRef)
    (hg : findTimer "BlockServer.Get" r.entries = some tg)
    (hp : findTimer "BlockServer.Put" r.entries = some tp)
    (ha : findTimer "BlockServer.AddBlockReference" r.entries = some ta)
    (hrm : findTimer "BlockServer.RemoveBlockReference" r.entries = some trm)
    (har : findTimer "BlockServer.ArchiveBlockReferences" r.entries = some tar) :
    NewBlockServerMeasured d r =
      ({ delegate := d, getTimer := tg, putTimer := tp, addBlockReferenceTimer := ta,
         removeBlockReferenceTimer := trm, archiveBlockReferencesTimer := tar }, r) := by
  simp only [NewBlockServerMeasured, getOrRegister_of_found _ _ _ hg,
    getOrRegister_of_found _ _ _ hp, getOrRegister_of_found _ _ _ ha,
    getOrRegister_of_found _ _ _ hrm, getOrRegister_of_found _ _ _ har]

theorem new_again {σ τ : Type} (d1 : IFCERFTBlockServer (World σ))
    (d2 : IFCERFTBlockServer (World τ)) (r : Registry) :
    (NewBlockServerMeasured d2 (NewBlockServerMeasured d1 r).2).2 =
        (NewBlockServerMeasured d1 r).2 ∧
      ∀ op, (NewBlockServerMeasured d2 (NewBlockServerMeasured d1 r).2).1.timer op =
        (NewBlockServerMeasured d1 r).1.timer op := by
  have h := new_of_found d2 (NewBlockServerMeasured d1 r).2 _ _ _ _ _
    (new_timer_find d1 r .Get) (new_timer_find d1 r .Put)
    (new_timer_find d1 r .AddBlockReference) (new_timer_find d1 r .RemoveBlockReference)
    (new_timer_find d1 r .ArchiveBlockReferences)
  rw [h]
  refine ⟨rfl, ?_⟩
  intro op
  cases op <;> rfl

/-! ## Timed calls -/

theorem iterate_metrics {L σ : Type} (f : L × World σ → L × World σ)
    (hf : ∀ y, (f y).2.metrics = y.2.metrics) (n : Nat) (x : L × World σ) :
    (Nat.iterate f n x).2.metrics = x.2.metrics := by
  induction n generalizing x with
  | zero => rfl
  | succ n ih => rw [Function.iterate_succ_apply, ih, hf]

theorem time_metrics {L σ : Type} (t : TimerRef) (f : L × World σ → L × World σ)
    (hf : ∀ y, (f y).2.metrics = y.2.metrics) (x : L × World σ) :
    (Time t f x).2.metrics =
      match x.2.metrics.entries[t]? with
      | none => x.2.metrics
      | some e => x.2.metrics.record t e.2.records := by
  unfold Time
  cases h : x.2.metrics.entries[t]? with
  | none => rfl
  | some e => simp [iterate_metrics f hf]

theorem invoke_passthrough {σ : Type} (b : BlockServerMeasured σ) (req : Request)
    (w : World σ) (h : req.operation = none) : b.invoke req w = b.delegate.invoke req w := by
  cases req <;> first | rfl | (exact absurd h (by simp [Request.operation]))

theorem invoke_runs_once {σ : Type} (b : BlockServerMeasured σ) (req : Request)
    (op : Operation) (w : World σ) (e : String × Timer) (hop : req.operation = some op)
    (he : w.metrics.entries[b.timer op]? = some e) (hruns : e.2.runs = 1) :
    b.invoke req w =
      ((b.delegate.invoke req w).1,
        { (b.delegate.invoke req w).2 with
          metrics := (b.delegate.invoke req w).2.metrics.record (b.timer op) e.2.records }) := by
  cases req <;> simp only [Request.operation, Option.some.injEq, reduceCtorEq] at hop <;> subst hop <;>
    simp only [BlockServerMeasured.timer] at he <;>
    simp [BlockServerMeasured.invoke, BlockServerMeasured.toBlockServer,
      IFCERFTBlockServer.invoke, BlockServerMeasured.Get, BlockServerMeasured.Put,
      BlockServerMeasured.AddBlockReference, BlockServerMeasured.RemoveBlockReference,
      BlockServerMeasured.ArchiveBlockReferences, Time, he, hruns, BlockServerMeasured.timer]

theorem invoke_standalone_metrics {σ : Type} (b : BlockServerMeasured (σ))
    (d : IFCERFTBlockServer σ) (hd : b.delegate = d.standalone) (req : Request)
    (op : Operation) (w : World σ) (hop : req.operation = some op) :
    (b.invoke req w).2.metrics =
      match w.metrics.entries[b.timer op]? with
      | none => w.metrics
      | some e => w.metrics.record (b.timer op) e.2.records := by
  cases req <;> simp only [Request.operation, Option.some.injEq, reduceCtorEq] at hop <;> subst hop <;>
    simp only [BlockServerMeasured.invoke, BlockServerMeasured.toBlockServer,
      IFCERFTBlockServer.invoke, BlockServerMeasured.Get, BlockServerMeasured.Put,
      BlockServerMeasured.AddBlockReference, BlockServerMeasured.RemoveBlockReference,
      BlockServerMeasured.ArchiveBlockReferences, BlockServerMeasured.timer, hd] <;>
    (refine time_metrics _ _ ?_ _; intro y; rfl)

theorem standalone_invoke {σ : Type} (d : IFCERFTBlockServer σ) (req : Request) (w : World σ) :
    d.standalone.invoke req w =
      ((d.invoke req w.server).1, { w with server := (d.invoke req w.server).2 }) := by
  cases req <;> rfl

theorem logged_invoke {σ : Type} (d : IFCERFTBlockServer σ) (req : Request) (s : σ)
    (log : List Request) :
    d.logged.invoke req (s, log) = ((d.invoke req s).1, ((d.invoke req s).2, log ++ [req])) := by
  cases req <;> rfl

theorem countOf_record (r : Registry) (name : String) (t i : TimerRef) (n : Nat)
    (h : findTimer name r.entries = some i) :
    (r.record t n).countOf name = (r.record t n).count i ∧ r.countOf name = r.count i := by
  simp [Registry.countOf, Registry.record, findTimer_addSamples, h]

theorem invoke_standalone_runs_once {σ : Type} (b : BlockServerMeasured σ)
    (d : IFCERFTBlockServer σ) (hd : b.delegate = d.standalone) (req : Request) (op : Operation)
    (w : World σ) (e : String × Timer) (hop : req.operation = some op)
    (he : w.metrics.entries[b.timer op]? = some e) (hruns : e.2.runs = 1) :
    b.invoke req w =
      ((d.invoke req w.server).1,
        ⟨(d.invoke req w.server).2, w.metrics.record (b.timer op) e.2.records⟩) := by
  rw [invoke_runs_once b req op w e hop he hruns, hd, standalone_invoke]

theorem record_entry (r : Registry) (t : TimerRef) (n : Nat) (e : String × Timer)
    (h : r.entries[t]? = some e) :
    (r.record t n).entries[t]? = some (e.1, { e.2 with count := e.2.count + n }) :=
  getElem?_addSamples_self n r.entries t e h

/-! ## Properties of the decorator -/

/-- C1, transparency of the measured operations: over a registry all of whose
timers run the timed function exactly once, a call on the decorator built by
NewBlockServerMeasured returns exactly the reply (values and error) that the
delegate gives for the same arguments in the same program state.  This holds
for every request, so in particular for Get, Put, AddBlockReference,
RemoveBlockReference and ArchiveBlockReferences, and for delegates that
succeed as well as for delegates that fail. -/
theorem measured_reply_is_delegate_reply {σ : Type} (d : IFCERFTBlockServer (World σ))
    (r : Registry) (s : σ) (req : Request)
    (hr : (NewBlockServerMeasured d r).2.RunsOnce) :
    ((NewBlockServerMeasured d r).1.invoke req ⟨s, (NewBlockServerMeasured d r).2⟩).1 =
      (d.invoke req ⟨s, (NewBlockServerMeasured d r).2⟩).1 := by
  cases hop : req.operation with
  | none => rw [invoke_passthrough _ _ _ hop]; rfl
  | some op =>
    obtain ⟨e, he, _⟩ := new_timer_entry d r op
    rw [invoke_runs_once _ req op ⟨s, (NewBlockServerMeasured d r).2⟩ e hop he
      (hr e (List.getElem?_mem he))]
    rfl

/-- A run of C1: the fake delegate answers Get of block 1 with the bytes of
abc and key 7, and so does the decorator; it answers Get of block 2 with
ErrBlockNotFound, and so does the decorator. -/
theorem measured_reply_is_delegate_reply_witness :
    (NewBlockServerMeasured fakeServer.standalone emptyRegistry).2.RunsOnce ∧
    ((NewBlockServerMeasured fakeServer.standalone emptyRegistry).1.invoke
        (.Get ⟨0⟩ ⟨1⟩ ⟨1⟩ ⟨1⟩)
        ⟨0, (NewBlockServerMeasured fakeServer.standalone emptyRegistry).2⟩).1 =
      .Get (some [97, 98, 99]) ⟨7⟩ none ∧
    ((NewBlockServerMeasured fakeServer.standalone emptyRegistry).1.invoke
        (.Get ⟨0⟩ ⟨2⟩ ⟨1⟩ ⟨1⟩)
        ⟨0, (NewBlockServerMeasured fakeServer.standalone emptyRegistry).2⟩).1 =
      .Get none ⟨0⟩ (some "ErrBlockNotFound") :=
  ⟨by decide,
    (measured_reply_is_delegate_reply fakeServer.standalone emptyRegistry 0
      (.Get ⟨0⟩ ⟨1⟩ ⟨1⟩ ⟨1⟩) (by decide)).trans (by decide),
    (measured_reply_is_delegate_reply fakeServer.standalone emptyRegistry 0
      (.Get ⟨0⟩ ⟨2⟩ ⟨1⟩ ⟨1⟩) (by decide)).trans (by decide)⟩

/-- C2, as stated, fails.  Over a registry that hands out no-op timers one Get
on the decorator leaves the Get timer at 0 samples.  With standard timers and
a delegate that is itself a decorator built against the same registry, one Get
takes the Get timer from 0 samples to 2. -/
theorem measured_call_sample_count_varies :
    (NewBlockServerMeasured fakeServer.standalone nilRegistry).2.countOf "BlockServer.Get" = 0 ∧
    ((NewBlockServerMeasured fakeServer.standalone nilRegistry).1.invoke
        (.Get ⟨0⟩ ⟨1⟩ ⟨1⟩ ⟨1⟩)
        ⟨0, (NewBlockServerMeasured fakeServer.standalone nilRegistry).2⟩).2.metrics.countOf
        "BlockServer.Get" = 0 ∧
    (NewBlockServerMeasured
        (NewBlockServerMeasured fakeServer.standalone emptyRegistry).1.toBlockServer
        (NewBlockServerMeasured fakeServer.standalone emptyRegistry).2).2.countOf
        "BlockServer.Get" = 0 ∧
    ((NewBlockServerMeasured
        (NewBlockServerMeasured fakeServer.standalone emptyRegistry).1.toBlockServer
        (NewBlockServerMeasured fakeServer.standalone emptyRegistry).2).1.invoke
        (.Get ⟨0⟩ ⟨1⟩ ⟨1⟩ ⟨1⟩)
        ⟨0, (NewBlockServerMeasured
          (NewBlockServerMeasured fakeServer.standalone emptyRegistry).1.toBlockServer
          (NewBlockServerMeasured fakeServer.standalone emptyRegistry).2).2⟩).2.metrics.countOf
        "BlockServer.Get" = 2 := by
  refine ⟨by decide, by decide, by decide, by decide⟩

/-- C2, amended: for every measured operation, every delegate that has a state
of its own and so records nothing into the registry, and every input, when the
timer bound to the operation, the timer registered as BlockServer.Operation,
records one sample per Time call, as a standard timer does, one call on the
decorator raises the sample count of that timer by exactly one, whatever error
the delegate returns. -/
theorem measured_call_adds_one_sample {σ : Type} (d : IFCERFTBlockServer σ) (r : Registry)
    (s : σ) (req : Request) (op : Operation) (hop : req.operation = some op)
    (hrec : (NewBlockServerMeasured d.standalone r).2.RecordsOneAt
      ((NewBlockServerMeasured d.standalone r).1.timer op)) :
    ((NewBlockServerMeasured d.standalone r).1.invoke req
        ⟨s, (NewBlockServerMeasured d.standalone r).2⟩).2.metrics.count
        ((NewBlockServerMeasured d.standalone r).1.timer op) =
      (NewBlockServerMeasured d.standalone r).2.count
        ((NewBlockServerMeasured d.standalone r).1.timer op) + 1 ∧
    ((NewBlockServerMeasured d.standalone r).1.invoke req
        ⟨s, (NewBlockServerMeasured d.standalone r).2⟩).2.metrics.countOf op.timerName =
      (NewBlockServerMeasured d.standalone r).2.countOf op.timerName + 1 := by
  obtain ⟨e, he, hone⟩ := hrec
  have hm := invoke_standalone_metrics (NewBlockServerMeasured d.standalone r).1 d rfl req op
    ⟨s, (NewBlockServerMeasured d.standalone r).2⟩ hop
  simp only [he, hone] at hm
  have hc := count_record_self (NewBlockServerMeasured d.standalone r).2 _ 1 e he
  obtain ⟨h1, h2⟩ := countOf_record (NewBlockServerMeasured d.standalone r).2 op.timerName
    ((NewBlockServerMeasured d.standalone r).1.timer op)
    ((NewBlockServerMeasured d.standalone r).1.timer op) 1 (new_timer_find d.standalone r op)
  rw [hm]
  exact ⟨hc, by rw [h1, h2, hc]⟩

/-- A run of the amended C2: one Get that succeeds and one Get that fails with
ErrBlockNotFound each take the Get timer of a fresh registry from 0 samples to
1. -/
theorem measured_call_adds_one_sample_witness :
    ((NewBlockServerMeasured fakeServer.standalone emptyRegistry).1.invoke
        (.Get ⟨0⟩ ⟨1⟩ ⟨1⟩ ⟨1⟩)
        ⟨0, (NewBlockServerMeasured fakeServer.standalone emptyRegistry).2⟩).2.metrics.countOf
        "BlockServer.Get" = 0 + 1 ∧
    ((NewBlockServerMeasured fakeServer.standalone emptyRegistry).1.invoke
        (.Get ⟨0⟩ ⟨2⟩ ⟨1⟩ ⟨1⟩)
        ⟨0, (NewBlockServerMeasured fakeServer.standalone emptyRegistry).2⟩).2.metrics.countOf
        "BlockServer.Get" = 0 + 1 :=
  ⟨(measured_call_adds_one_sample fakeServer emptyRegistry 0 (.Get ⟨0⟩ ⟨1⟩ ⟨1⟩ ⟨1⟩) .Get rfl
      ⟨_, rfl, rfl⟩).2,
    (measured_call_adds_one_sample fakeServer emptyRegistry 0 (.Get ⟨0⟩ ⟨2⟩ ⟨1⟩ ⟨1⟩) .Get rfl
      ⟨_, rfl, rfl⟩).2⟩

/-- C3, timer isolation: over any registry and for any two distinct measured
operations A and B, a call of A on the decorator built by
NewBlockServerMeasured leaves the sample count of the timer bound to B
unchanged. -/
theorem measured_call_keeps_other_timers {σ : Type} (d : IFCERFTBlockServer σ) (r : Registry)
    (s : σ) (req : Request) (opA opB : Operation) (hop : req.operation = some opA)
    (hAB : opA ≠ opB) :
    ((NewBlockServerMeasured d.standalone r).1.invoke req
        ⟨s, (NewBlockServerMeasured d.standalone r).2⟩).2.metrics.count
        ((NewBlockServerMeasured d.standalone r).1.timer opB) =
      (NewBlockServerMeasured d.standalone r).2.count
        ((NewBlockServerMeasured d.standalone r).1.timer opB) ∧
    ((NewBlockServerMeasured d.standalone r).1.invoke req
        ⟨s, (NewBlockServerMeasured d.standalone r).2⟩).2.metrics.countOf opB.timerName =
      (NewBlockServerMeasured d.standalone r).2.countOf opB.timerName := by
  obtain ⟨e, he, _⟩ := new_timer_entry d.standalone r opA
  have hm := invoke_standalone_metrics (NewBlockServerMeasured d.standalone r).1 d rfl req opA
    ⟨s, (NewBlockServerMeasured d.standalone r).2⟩ hop
  simp only [he] at hm
  have hne : (NewBlockServerMeasured d.standalone r).1.timer opA ≠
      (NewBlockServerMeasured d.standalone r).1.timer opB :=
    fun h => hAB (new_timer_injective d.standalone r opA opB h)
  have hc := count_record_ne (NewBlockServerMeasured d.standalone r).2 _ _ e.2.records hne
  obtain ⟨h1, h2⟩ := countOf_record (NewBlockServerMeasured d.standalone r).2 opB.timerName
    ((NewBlockServerMeasured d.standalone r).1.timer opA)
    ((NewBlockServerMeasured d.standalone r).1.timer opB) e.2.records
    (new_timer_find d.standalone r opB)
  rw [hm]
  exact ⟨hc, by rw [h1, h2, hc]⟩

/-- A run of C3: one RemoveBlockReference call on a fresh registry returns the
live counts of the delegate, adds a sample to the RemoveBlockReference timer,
and the Get timer keeps its count. -/
theorem measured_call_keeps_other_timers_witness :
    ((NewBlockServerMeasured fakeServer.standalone emptyRegistry).1.invoke
        (.RemoveBlockReference ⟨0⟩ ⟨1⟩ (some [(⟨1⟩, [⟨1⟩, ⟨2⟩])]))
        ⟨0, (NewBlockServerMeasured fakeServer.standalone emptyRegistry).2⟩).2.metrics.countOf
        "BlockServer.Get" = 0 ∧
    ((NewBlockServerMeasured fakeServer.standalone emptyRegistry).1.invoke
        (.RemoveBlockReference ⟨0⟩ ⟨1⟩ (some [(⟨1⟩, [⟨1⟩, ⟨2⟩])]))
        ⟨0, (NewBlockServerMeasured fakeServer.standalone emptyRegistry).2⟩).2.metrics.countOf
        "BlockServer.RemoveBlockReference" = 1 ∧
    ((NewBlockServerMeasured fakeServer.standalone emptyRegistry).1.invoke
        (.RemoveBlockReference ⟨0⟩ ⟨1⟩ (some [(⟨1⟩, [⟨1⟩, ⟨2⟩])]))
        ⟨0, (NewBlockServerMeasured fakeServer.standalone emptyRegistry).2⟩).1 =
      .RemoveBlockReference (some [(⟨1⟩, 0)]) none :=
  ⟨(measured_call_keeps_other_timers fakeServer emptyRegistry 0
      (.RemoveBlockReference ⟨0⟩ ⟨1⟩ (some [(⟨1⟩, [⟨1⟩, ⟨2⟩])])) .RemoveBlockReference .Get rfl
      (by decide)).2, by decide, by decide⟩

/-- C4, idempotent registration: when a second decorator is constructed
against the registry left by a first construction, with any delegates, its
five timer fields are the timer instances the first decorator holds, the
registry is left as it was (no entry is added), and each of these instances is
the registry entry for its name.  Consequently a measured call through either
decorator is counted in the one shared timer: through the first as through the
second decorator the count at the shared position rises by what that timer
records in one Time call, the rest of the registry changes identically, and a
call through the first followed by a call through the second raises that one
count twice; with a timer that records one sample per Time call these are
rises by one and by two. -/
theorem second_construction_shares_timers {σ τ : Type} (d1 : IFCERFTBlockServer (World σ))
    (d2 : IFCERFTBlockServer (World τ)) (e1 e2 : IFCERFTBlockServer σ)
    (r : Registry) (s1 s2 : σ) (req : Request) :
    ((NewBlockServerMeasured d2 (NewBlockServerMeasured d1 r).2).1.getTimer =
        (NewBlockServerMeasured d1 r).1.getTimer ∧
      (NewBlockServerMeasured d2 (NewBlockServerMeasured d1 r).2).1.putTimer =
        (NewBlockServerMeasured d1 r).1.putTimer ∧
      (NewBlockServerMeasured d2 (NewBlockServerMeasured d1 r).2).1.addBlockReferenceTimer =
        (NewBlockServerMeasured d1 r).1.addBlockReferenceTimer ∧
      (NewBlockServerMeasured d2 (NewBlockServerMeasured d1 r).2).1.removeBlockReferenceTimer =
        (NewBlockServerMeasured d1 r).1.removeBlockReferenceTimer ∧
      (NewBlockServerMeasured d2 (NewBlockServerMeasured d1 r).2).1.archiveBlockReferencesTimer =
        (NewBlockServerMeasured d1 r).1.archiveBlockReferencesTimer) ∧
    (NewBlockServerMeasured d2 (NewBlockServerMeasured d1 r).2).2 =
      (NewBlockServerMeasured d1 r).2 ∧
    (∀ op, findTimer op.timerName (NewBlockServerMeasured d1 r).2.entries =
      some ((NewBlockServerMeasured d1 r).1.timer op)) ∧
    ((NewBlockServerMeasured e2.standalone (NewBlockServerMeasured e1.standalone r).2).1.invoke req
        ⟨s2, (NewBlockServerMeasured e1.standalone r).2⟩).2.metrics =
      ((NewBlockServerMeasured e1.standalone r).1.invoke req
        ⟨s1, (NewBlockServerMeasured e1.standalone r).2⟩).2.metrics ∧
    ∀ op, req.operation = some op →
      ∃ e, (NewBlockServerMeasured e1.standalone r).2.entries[
            (NewBlockServerMeasured e1.standalone r).1.timer op]? = some e ∧
        e.1 = op.timerName ∧
        ((NewBlockServerMeasured e1.standalone r).1.invoke req
            ⟨s1, (NewBlockServerMeasured e1.standalone r).2⟩).2.metrics.count
            ((NewBlockServerMeasured e1.standalone r).1.timer op) =
          (NewBlockServerMeasured e1.standalone r).2.count
            ((NewBlockServerMeasured e1.standalone r).1.timer op) + e.2.records ∧
        ((NewBlockServerMeasured e2.standalone
            (NewBlockServerMeasured e1.standalone r).2).1.invoke req
            ⟨s2, (NewBlockServerMeasured e1.standalone r).2⟩).2.metrics.count
            ((NewBlockServerMeasured e1.standalone r).1.timer op) =
          (NewBlockServerMeasured e1.standalone r).2.count
            ((NewBlockServerMeasured e1.standalone r).1.timer op) + e.2.records ∧
        ((NewBlockServerMeasured e2.standalone
            (NewBlockServerMeasured e1.standalone r).2).1.invoke req
            ((NewBlockServerMeasured e1.standalone r).1.invoke req
              ⟨s1, (NewBlockServerMeasured e1.standalone r).2⟩).2).2.metrics.count
            ((NewBlockServerMeasured e1.standalone r).1.timer op) =
          (NewBlockServerMeasured e1.standalone r).2.count
            ((NewBlockServerMeasured e1.standalone r).1.timer op) + e.2.records + e.2.records ∧
        ((NewBlockServerMeasured e1.standalone r).2.RecordsOneAt
            ((NewBlockServerMeasured e1.standalone r).1.timer op) →
          ((NewBlockServerMeasured e2.standalone
              (NewBlockServerMeasured e1.standalone r).2).1.invoke req
              ⟨s2, (NewBlockServerMeasured e1.standalone r).2⟩).2.metrics.count
              ((NewBlockServerMeasured e1.standalone r).1.timer op) =
            (NewBlockServerMeasured e1.standalone r).2.count
              ((NewBlockServerMeasured e1.standalone r).1.timer op) + 1 ∧
          ((NewBlockServerMeasured e2.standalone
              (NewBlockServerMeasured e1.standalone r).2).1.invoke req
              ((NewBlockServerMeasured e1.standalone r).1.invoke req
                ⟨s1, (NewBlockServerMeasured e1.standalone r).2⟩).2).2.metrics.count
              ((NewBlockServerMeasured e1.standalone r).1.timer op) =
            (NewBlockServerMeasured e1.standalone r).2.count
              ((NewBlockServerMeasured e1.standalone r).1.timer op) + 2) := by
  obtain ⟨hreg, htim⟩ := new_again d1 d2 r
  refine ⟨⟨htim .Get, htim .Put, htim .AddBlockReference, htim .RemoveBlockReference,
    htim .ArchiveBlockReferences⟩, hreg, new_timer_find d1 r, ?_, ?_⟩
  · cases hop : req.operation with
    | none =>
      rw [invoke_passthrough _ _ _ hop, invoke_passthrough _ _ _ hop]
      show (e2.standalone.invoke req _).2.metrics = (e1.standalone.invoke req _).2.metrics
      rw [standalone_invoke, standalone_invoke]
    | some op =>
      have h1 := invoke_standalone_metrics (NewBlockServerMeasured e1.standalone r).1 e1 rfl
        req op ⟨s1, (NewBlockServerMeasured e1.standalone r).2⟩ hop
      have h2 := invoke_standalone_metrics
        (NewBlockServerMeasured e2.standalone (NewBlockServerMeasured e1.standalone r).2).1 e2 rfl
        req op ⟨s2, (NewBlockServerMeasured e1.standalone r).2⟩ hop
      rw [(new_again e1.standalone e2.standalone r).2 op] at h2
      rw [h1, h2]
  · intro op hop
    obtain ⟨e, he, hn⟩ := new_timer_entry e1.standalone r op
    have ht := (new_again e1.standalone e2.standalone r).2 op
    have h1 := invoke_standalone_metrics (NewBlockServerMeasured e1.standalone r).1 e1 rfl
      req op ⟨s1, (NewBlockServerMeasured e1.standalone r).2⟩ hop
    have h2 := invoke_standalone_metrics
      (NewBlockServerMeasured e2.standalone (NewBlockServerMeasured e1.standalone r).2).1 e2 rfl
      req op ⟨s2, (NewBlockServerMeasured e1.standalone r).2⟩ hop
    have h3 := invoke_standalone_metrics
      (NewBlockServerMeasured e2.standalone (NewBlockServerMeasured e1.standalone r).2).1 e2 rfl
      req op ((NewBlockServerMeasured e1.standalone r).1.invoke req
        ⟨s1, (NewBlockServerMeasured e1.standalone r).2⟩).2 hop
    have hent := record_entry (NewBlockServerMeasured e1.standalone r).2 _ e.2.records e he
    rw [ht] at h2 h3
    simp only [he] at h1 h2
    rw [h1] at h3
    simp only [hent] at h3
    have c1 := count_record_self (NewBlockServerMeasured e1.standalone r).2 _ e.2.records e he
    have c2 := count_record_self
      ((NewBlockServerMeasured e1.standalone r).2.record
        ((NewBlockServerMeasured e1.standalone r).1.timer op) e.2.records) _ e.2.records _ hent
    have hone : ((NewBlockServerMeasured e1.standalone r).1.invoke req
        ⟨s1, (NewBlockServerMeasured e1.standalone r).2⟩).2.metrics.count
        ((NewBlockServerMeasured e1.standalone r).1.timer op) =
        (NewBlockServerMeasured e1.standalone r).2.count
          ((NewBlockServerMeasured e1.standalone r).1.timer op) + e.2.records := by
      rw [h1]; exact c1
    have htwo : ((NewBlockServerMeasured e2.standalone
        (NewBlockServerMeasured e1.standalone r).2).1.invoke req
        ⟨s2, (NewBlockServerMeasured e1.standalone r).2⟩).2.metrics.count
        ((NewBlockServerMeasured e1.standalone r).1.timer op) =
        (NewBlockServerMeasured e1.standalone r).2.count
          ((NewBlockServerMeasured e1.standalone r).1.timer op) + e.2.records := by
      rw [h2]; exact c1
    have hseq : ((NewBlockServerMeasured e2.standalone
        (NewBlockServerMeasured e1.standalone r).2).1.invoke req
        ((NewBlockServerMeasured e1.standalone r).1.invoke req
          ⟨s1, (NewBlockServerMeasured e1.standalone r).2⟩).2).2.metrics.count
        ((NewBlockServerMeasured e1.standalone r).1.timer op) =
        (NewBlockServerMeasured e1.standalone r).2.count
          ((NewBlockServerMeasured e1.standalone r).1.timer op) + e.2.records + e.2.records := by
      rw [h3, ← c1]; exact c2
    refine ⟨e, he, hn, hone, htwo, hseq, ?_⟩
    rintro ⟨e3, he3, hrec⟩
    have hee : e3 = e := by rw [he] at he3; simpa using he3.symm
    subst hee
    rw [hrec] at htwo hseq
    exact ⟨htwo, hseq⟩

/-- A run of C4: two decorators over the fake delegate, the second built
against the registry the first construction left.  A Get through the first
and then the same Get through the second take the one Get timer from 0 samples
to 2, and the second construction leaves the registry of five entries as it
is. -/
theorem second_construction_shares_timers_witness :
    ((NewBlockServerMeasured fakeServer.standalone
        (NewBlockServerMeasured fakeServer.standalone emptyRegistry).2).1.invoke
        (.Get ⟨0⟩ ⟨1⟩ ⟨1⟩ ⟨1⟩)
        ((NewBlockServerMeasured fakeServer.standalone emptyRegistry).1.invoke
          (.Get ⟨0⟩ ⟨1⟩ ⟨1⟩ ⟨1⟩)
          ⟨0, (NewBlockServerMeasured fakeServer.standalone emptyRegistry).2⟩).2).2.metrics.count
        (NewBlockServerMeasured fakeServer.standalone emptyRegistry).1.getTimer = 0 + 2 ∧
    (NewBlockServerMeasured fakeServer.standalone
        (NewBlockServerMeasured fakeServer.standalone emptyRegistry).2).2.entries.length = 5 ∧
    (NewBlockServerMeasured fakeServer.standalone
        (NewBlockServerMeasured fakeServer.standalone emptyRegistry).2).2 =
      (NewBlockServerMeasured fakeServer.standalone emptyRegistry).2 :=
  ⟨match (second_construction_shares_timers fakeServer.standalone fakeServer.standalone
      fakeServer fakeServer emptyRegistry 0 0 (.Get ⟨0⟩ ⟨1⟩ ⟨1⟩ ⟨1⟩)).2.2.2.2 .Get rfl with
    | ⟨_, _, _, _, _, _, h⟩ => (h ⟨_, rfl, rfl⟩).2,
    by decide,
    (second_construction_shares_timers fakeServer.standalone fakeServer.standalone fakeServer
      fakeServer emptyRegistry 0 0 (.Get ⟨0⟩ ⟨1⟩ ⟨1⟩ ⟨1⟩)).2.1⟩

/-- C5, transparency of the pass-through operations: on the decorator built by
NewBlockServerMeasured, GetUserQuotaInfo returns the info pointer, the error
and the program state that the delegate returns for the same context, and
Shutdown and RefreshAuthToken leave the program state the delegate leaves.
With a delegate that logs its calls, the log grows by exactly the one call of
the same name with the same argument, and the registry is as before. -/
theorem passthrough_is_delegate_call {σ τ : Type} (d : IFCERFTBlockServer (World σ))
    (e : IFCERFTBlockServer τ) (r m : Registry) (w : World σ) (ctx : Context) (s : τ)
    (log : List Request) :
    (NewBlockServerMeasured d r).1.GetUserQuotaInfo ctx w = d.GetUserQuotaInfo ctx w ∧
    (NewBlockServerMeasured d r).1.Shutdown w = d.Shutdown w ∧
    (NewBlockServerMeasured d r).1.RefreshAuthToken ctx w = d.RefreshAuthToken ctx w ∧
    (NewBlockServerMeasured e.logged.standalone r).1.GetUserQuotaInfo ctx ⟨(s, log), m⟩ =
      ((e.GetUserQuotaInfo ctx s).1,
        ⟨((e.GetUserQuotaInfo ctx s).2, log ++ [.GetUserQuotaInfo ctx]), m⟩) ∧
    (NewBlockServerMeasured e.logged.standalone r).1.Shutdown ⟨(s, log), m⟩ =
      ⟨(e.Shutdown s, log ++ [.Shutdown]), m⟩ ∧
    (NewBlockServerMeasured e.logged.standalone r).1.RefreshAuthToken ctx ⟨(s, log), m⟩ =
      ⟨(e.RefreshAuthToken ctx s, log ++ [.RefreshAuthToken ctx]), m⟩ :=
  ⟨rfl, rfl, rfl, rfl, rfl, rfl⟩

/-- C6, pass-through non-instrumentation: for every delegate with a state of
its own and every registry, Shutdown, RefreshAuthToken and GetUserQuotaInfo on
the decorator leave the registry as it is, so the sample count of every timer
position, the five timers of the decorator among them, is unchanged. -/
theorem passthrough_keeps_registry {σ : Type} (d : IFCERFTBlockServer σ) (r : Registry)
    (w : World σ) (ctx : Context) (t : TimerRef) :
    ((NewBlockServerMeasured d.standalone r).1.Shutdown w).metrics = w.metrics ∧
    ((NewBlockServerMeasured d.standalone r).1.RefreshAuthToken ctx w).metrics = w.metrics ∧
    ((NewBlockServerMeasured d.standalone r).1.GetUserQuotaInfo ctx w).2.metrics = w.metrics ∧
    ((NewBlockServerMeasured d.standalone r).1.Shutdown w).metrics.count t = w.metrics.count t ∧
    ((NewBlockServerMeasured d.standalone r).1.RefreshAuthToken ctx w).metrics.count t =
      w.metrics.count t ∧
    ((NewBlockServerMeasured d.standalone r).1.GetUserQuotaInfo ctx w).2.metrics.count t =
      w.metrics.count t :=
  ⟨rfl, rfl, rfl, rfl, rfl, rfl⟩

/-- C7, as stated, fails: over a registry that hands out no-op timers the
decorator never runs the delegate and returns the zero values.  The fake
delegate answers Get of block 1 with the bytes of abc and key 7, but the
decorator returns a nil slice, the zero key and a nil error; the delegate
fails Put with ErrBlockNotFound, but the decorator returns a nil error. -/
theorem noop_timer_hides_delegate_reply :
    (NewBlockServerMeasured fakeServer.standalone nilRegistry).2.entries[
        (NewBlockServerMeasured fakeServer.standalone nilRegistry).1.getTimer]? =
      some ("BlockServer.Get", NilTimer) ∧
    (fakeServer.standalone.invoke (.Get ⟨0⟩ ⟨1⟩ ⟨1⟩ ⟨1⟩)
        ⟨0, (NewBlockServerMeasured fakeServer.standalone nilRegistry).2⟩).1 =
      .Get (some [97, 98, 99]) ⟨7⟩ none ∧
    ((NewBlockServerMeasured fakeServer.standalone nilRegistry).1.invoke
        (.Get ⟨0⟩ ⟨1⟩ ⟨1⟩ ⟨1⟩)
        ⟨0, (NewBlockServerMeasured fakeServer.standalone nilRegistry).2⟩).1 =
      .Get none ⟨0⟩ none ∧
    (fakeServer.standalone.invoke (.Put ⟨0⟩ ⟨1⟩ ⟨1⟩ ⟨1⟩ (some [1]) ⟨7⟩)
        ⟨0, (NewBlockServerMeasured fakeServer.standalone nilRegistry).2⟩).1 =
      .Put (some "ErrBlockNotFound") ∧
    ((NewBlockServerMeasured fakeServer.standalone nilRegistry).1.invoke
        (.Put ⟨0⟩ ⟨1⟩ ⟨1⟩ ⟨1⟩ (some [1]) ⟨7⟩)
        ⟨0, (NewBlockServerMeasured fakeServer.standalone nilRegistry).2⟩).1 =
      .Put none ∧
    ((NewBlockServerMeasured fakeServer.standalone nilRegistry).1.invoke
        (.Get ⟨0⟩ ⟨1⟩ ⟨1⟩ ⟨1⟩)
        ⟨0, (NewBlockServerMeasured fakeServer.standalone nilRegistry).2⟩).1 ≠
      (fakeServer.standalone.invoke (.Get ⟨0⟩ ⟨1⟩ ⟨1⟩ ⟨1⟩)
        ⟨0, (NewBlockServerMeasured fakeServer.standalone nilRegistry).2⟩).1 := by
  refine ⟨by decide, by decide, by decide, by decide, by decide, by decide⟩

/-- C7, amended: whatever timer implementation the registry supplies for a
measured operation, as long as its Time runs the timed function exactly once,
the decorator returns the reply (values and error) of the delegate for the
same arguments; how many samples that timer records, none included, and what
the other timers of the registry do, makes no difference. -/
theorem measured_reply_when_timer_runs_once {σ : Type} (d : IFCERFTBlockServer (World σ))
    (r : Registry) (s : σ) (req : Request) (op : Operation) (hop : req.operation = some op)
    (hruns : (NewBlockServerMeasured d r).2.RunsOnceAt ((NewBlockServerMeasured d r).1.timer op)) :
    ((NewBlockServerMeasured d r).1.invoke req ⟨s, (NewBlockServerMeasured d r).2⟩).1 =
      (d.invoke req ⟨s, (NewBlockServerMeasured d r).2⟩).1 := by
  obtain ⟨e, he, h1⟩ := hruns
  rw [invoke_runs_once _ req op ⟨s, (NewBlockServerMeasured d r).2⟩ e hop he h1]
  rfl

/-- A run of the amended C7: the Get timer runs the function but never records
a sample, and the other four timers are no-op timers; Get on the decorator
returns the reply of the delegate, and the Get timer still has no sample. -/
theorem measured_reply_when_timer_runs_once_witness :
    ((NewBlockServerMeasured fakeServer.standalone silentRegistry).1.invoke
        (.Get ⟨0⟩ ⟨1⟩ ⟨1⟩ ⟨1⟩)
        ⟨0, (NewBlockServerMeasured fakeServer.standalone silentRegistry).2⟩).1 =
      .Get (some [97, 98, 99]) ⟨7⟩ none ∧
    ((NewBlockServerMeasured fakeServer.standalone silentRegistry).1.invoke
        (.Get ⟨0⟩ ⟨1⟩ ⟨1⟩ ⟨1⟩)
        ⟨0, (NewBlockServerMeasured fakeServer.standalone silentRegistry).2⟩).2.metrics.countOf
        "BlockServer.Get" = 0 :=
  ⟨(measured_reply_when_timer_runs_once fakeServer.standalone silentRegistry 0
      (.Get ⟨0⟩ ⟨1⟩ ⟨1⟩ ⟨1⟩) .Get rfl ⟨_, rfl, rfl⟩).trans (by decide), by decide⟩

/-- C8, fixed timer names: NewBlockServerMeasured leaves a registry whose names
are the previous names and the five names BlockServer.Get, BlockServer.Put,
BlockServer.AddBlockReference, BlockServer.RemoveBlockReference and
BlockServer.ArchiveBlockReferences; the previous entries are all there,
unchanged and in place, and what is added behind them are newly created timers
under those of the five names that were not registered before; and the fields
getTimer, putTimer, addBlockReferenceTimer, removeBlockReferenceTimer and
archiveBlockReferencesTimer are the registry entries for the five names, in
that order, one entry for each operation. -/
theorem construction_registers_five_names {σ : Type} (d : IFCERFTBlockServer (World σ))
    (r : Registry) :
    (∀ m, m ∈ (NewBlockServerMeasured d r).2.names ↔
      m ∈ r.names ∨ m = "BlockServer.Get" ∨ m = "BlockServer.Put" ∨
        m = "BlockServer.AddBlockReference" ∨ m = "BlockServer.RemoveBlockReference" ∨
        m = "BlockServer.ArchiveBlockReferences") ∧
    r.ExtendedBy (NewBlockServerMeasured d r).2 ∧
    findTimer "BlockServer.Get" (NewBlockServerMeasured d r).2.entries =
      some (NewBlockServerMeasured d r).1.getTimer ∧
    findTimer "BlockServer.Put" (NewBlockServerMeasured d r).2.entries =
      some (NewBlockServerMeasured d r).1.putTimer ∧
    findTimer "BlockServer.AddBlockReference" (NewBlockServerMeasured d r).2.entries =
      some (NewBlockServerMeasured d r).1.addBlockReferenceTimer ∧
    findTimer "BlockServer.RemoveBlockReference" (NewBlockServerMeasured d r).2.entries =
      some (NewBlockServerMeasured d r).1.removeBlockReferenceTimer ∧
    findTimer "BlockServer.ArchiveBlockReferences" (NewBlockServerMeasured d r).2.entries =
      some (NewBlockServerMeasured d r).1.archiveBlockReferencesTimer ∧
    [(NewBlockServerMeasured d r).1.getTimer, (NewBlockServerMeasured d r).1.putTimer,
      (NewBlockServerMeasured d r).1.addBlockReferenceTimer,
      (NewBlockServerMeasured d r).1.removeBlockReferenceTimer,
      (NewBlockServerMeasured d r).1.archiveBlockReferencesTimer].Nodup ∧
    (NewBlockServerMeasured d r).1.delegate = d := by
  refine ⟨?_, new_extendedBy d r, new_timer_find d r .Get, new_timer_find d r .Put,
    new_timer_find d r .AddBlockReference, new_timer_find d r .RemoveBlockReference,
    new_timer_find d r .ArchiveBlockReferences, ?_, rfl⟩
  · intro m
    rw [new_names d r m]
    simp [timerNames]
  · exact (List.nodup_map_iff_inj_on (f := (NewBlockServerMeasured d r).1.timer)
      (l := [.Get, .Put, .AddBlockReference, .RemoveBlockReference, .ArchiveBlockReferences])
      (by decide)).2 (fun o1 _ o2 _ heq => new_timer_injective d r o1 o2 heq)

/-- C9, as stated, fails.  Over a registry that hands out no-op timers one Put
on the decorator never reaches the delegate: the fake delegate, which had
served 4 calls and logged none, is left as it was, and the decorator returns a
nil error, while a direct Put is served, logged and fails with
ErrBlockNotFound.  Over a registry whose Put timer runs the timed function
twice, one Put on the decorator makes the delegate serve and log two Puts. -/
theorem measured_call_delegation_varies :
    ((NewBlockServerMeasured fakeServer.logged.standalone nilRegistry).1.invoke
        (.Put ⟨0⟩ ⟨1⟩ ⟨2⟩ ⟨3⟩ (some [4]) ⟨5⟩)
        ⟨(4, []), (NewBlockServerMeasured fakeServer.logged.standalone nilRegistry).2⟩).2.server =
      (4, []) ∧
    ((NewBlockServerMeasured fakeServer.logged.standalone nilRegistry).1.invoke
        (.Put ⟨0⟩ ⟨1⟩ ⟨2⟩ ⟨3⟩ (some [4]) ⟨5⟩)
        ⟨(4, []), (NewBlockServerMeasured fakeServer.logged.standalone nilRegistry).2⟩).1 =
      .Put none ∧
    fakeServer.logged.invoke (.Put ⟨0⟩ ⟨1⟩ ⟨2⟩ ⟨3⟩ (some [4]) ⟨5⟩) (4, []) =
      (.Put (some "ErrBlockNotFound"), (5, [.Put ⟨0⟩ ⟨1⟩ ⟨2⟩ ⟨3⟩ (some [4]) ⟨5⟩])) ∧
    ((NewBlockServerMeasured fakeServer.logged.standalone eagerRegistry).1.invoke
        (.Put ⟨0⟩ ⟨1⟩ ⟨2⟩ ⟨3⟩ (some [4]) ⟨5⟩)
        ⟨(4, []), (NewBlockServerMeasured fakeServer.logged.standalone eagerRegistry).2⟩).2.server =
      (6, [.Put ⟨0⟩ ⟨1⟩ ⟨2⟩ ⟨3⟩ (some [4]) ⟨5⟩, .Put ⟨0⟩ ⟨1⟩ ⟨2⟩ ⟨3⟩ (some [4]) ⟨5⟩]) := by
  refine ⟨by decide, by decide, by decide, by decide⟩

/-- C9, amended: for every measured operation and every input, when the timer
bound to the operation runs the timed function exactly once, as a standard
timer does, one call on the decorator makes the delegate serve exactly one
call, the call of the same name with the arguments the caller passed, in the
same positions, and no other call: a delegate that logs its calls has its log
extended by that one request, and its state afterwards is its state after a
direct call with the same arguments. -/
theorem measured_call_delegates_once {σ : Type} (d : IFCERFTBlockServer σ) (r : Registry)
    (s : σ) (log : List Request) (req : Request) (op : Operation)
    (hop : req.operation = some op)
    (hruns : (NewBlockServerMeasured d.logged.standalone r).2.RunsOnceAt
      ((NewBlockServerMeasured d.logged.standalone r).1.timer op)) :
    ((NewBlockServerMeasured d.logged.standalone r).1.invoke req
        ⟨(s, log), (NewBlockServerMeasured d.logged.standalone r).2⟩).2.server =
      ((d.invoke req s).2, log ++ [req]) ∧
    ((NewBlockServerMeasured d.logged.standalone r).1.invoke req
        ⟨(s, log), (NewBlockServerMeasured d.logged.standalone r).2⟩).2.server =
      (d.logged.invoke req (s, log)).2 := by
  obtain ⟨e, he, h1⟩ := hruns
  rw [invoke_standalone_runs_once _ d.logged rfl req op
    ⟨(s, log), (NewBlockServerMeasured d.logged.standalone r).2⟩ e hop he h1, logged_invoke]
  exact ⟨rfl, rfl⟩

/-- A run of the amended C9: one Put on the decorator over a fresh registry; the fake
delegate, which had served 4 calls and logged none, has then served 5 and its
log holds this one Put with the arguments of the caller. -/
theorem measured_call_delegates_once_witness :
    ((NewBlockServerMeasured fakeServer.logged.standalone emptyRegistry).1.invoke
        (.Put ⟨0⟩ ⟨1⟩ ⟨2⟩ ⟨3⟩ (some [4]) ⟨5⟩)
        ⟨(4, []), (NewBlockServerMeasured fakeServer.logged.standalone emptyRegistry).2⟩).2.server =
      (5, [.Put ⟨0⟩ ⟨1⟩ ⟨2⟩ ⟨3⟩ (some [4]) ⟨5⟩]) :=
  (measured_call_delegates_once fakeServer emptyRegistry 4 [] (.Put ⟨0⟩ ⟨1⟩ ⟨2⟩ ⟨3⟩ (some [4]) ⟨5⟩)
    .Put rfl ⟨_, rfl, rfl⟩).1

/-- C10, as stated, fails.  With two decorators stacked over the fake
delegate against a registry that hands out no-op timers, one Get on the outer
decorator returns a nil slice, the zero key and a nil error, leaves the
delegate unserved with an empty log, and leaves the Get timer at 0 samples,
while the delegate answers the same Get with the bytes of abc and key 7. -/
theorem stacked_call_over_noop_timers :
    ((NewBlockServerMeasured
        (NewBlockServerMeasured fakeServer.logged.standalone nilRegistry).1.toBlockServer
        (NewBlockServerMeasured fakeServer.logged.standalone nilRegistry).2).1.invoke
        (.Get ⟨0⟩ ⟨1⟩ ⟨1⟩ ⟨1⟩)
        ⟨(0, []), (NewBlockServerMeasured fakeServer.logged.standalone nilRegistry).2⟩) =
      (.Get none ⟨0⟩ none,
        ⟨(0, []), (NewBlockServerMeasured fakeServer.logged.standalone nilRegistry).2⟩) ∧
    (NewBlockServerMeasured fakeServer.logged.standalone nilRegistry).2.countOf
        "BlockServer.Get" = 0 ∧
    (fakeServer.invoke (.Get ⟨0⟩ ⟨1⟩ ⟨1⟩ ⟨1⟩) 0).1 = .Get (some [97, 98, 99]) ⟨7⟩ none := by
  refine ⟨by decide, by decide, by decide⟩

/-- C10, amended: let a first decorator be built over a delegate and a second
one over the first, against the same registry, and let the timer of the
operation behave as a standard timer: it runs the timed function exactly once
and records one sample per Time call.  The second construction leaves the
registry as it is and holds the timer instances of the first.  One measured
call on the outer decorator returns the reply of the delegate, makes the
delegate serve exactly that one call, raises the sample count of the timer of
the operation by exactly two, and leaves the counts of the other four timers
unchanged. -/
theorem stacked_call_adds_two_samples {σ : Type} (d : IFCERFTBlockServer σ) (r : Registry)
    (s : σ) (log : List Request) (req : Request) (op : Operation)
    (hop : req.operation = some op)
    (hruns : (NewBlockServerMeasured d.logged.standalone r).2.RunsOnceAt
      ((NewBlockServerMeasured d.logged.standalone r).1.timer op))
    (hrec : (NewBlockServerMeasured d.logged.standalone r).2.RecordsOneAt
      ((NewBlockServerMeasured d.logged.standalone r).1.timer op)) :
    (NewBlockServerMeasured (NewBlockServerMeasured d.logged.standalone r).1.toBlockServer
        (NewBlockServerMeasured d.logged.standalone r).2).2 =
      (NewBlockServerMeasured d.logged.standalone r).2 ∧
    (∀ o, (NewBlockServerMeasured (NewBlockServerMeasured d.logged.standalone r).1.toBlockServer
        (NewBlockServerMeasured d.logged.standalone r).2).1.timer o =
      (NewBlockServerMeasured d.logged.standalone r).1.timer o) ∧
    ((NewBlockServerMeasured (NewBlockServerMeasured d.logged.standalone r).1.toBlockServer
        (NewBlockServerMeasured d.logged.standalone r).2).1.invoke req
        ⟨(s, log), (NewBlockServerMeasured d.logged.standalone r).2⟩).1 = (d.invoke req s).1 ∧
    ((NewBlockServerMeasured (NewBlockServerMeasured d.logged.standalone r).1.toBlockServer
        (NewBlockServerMeasured d.logged.standalone r).2).1.invoke req
        ⟨(s, log), (NewBlockServerMeasured d.logged.standalone r).2⟩).2.server =
      ((d.invoke req s).2, log ++ [req]) ∧
    ((NewBlockServerMeasured (NewBlockServerMeasured d.logged.standalone r).1.toBlockServer
        (NewBlockServerMeasured d.logged.standalone r).2).1.invoke req
        ⟨(s, log), (NewBlockServerMeasured d.logged.standalone r).2⟩).2.metrics.count
        ((NewBlockServerMeasured d.logged.standalone r).1.timer op) =
      (NewBlockServerMeasured d.logged.standalone r).2.count
        ((NewBlockServerMeasured d.logged.standalone r).1.timer op) + 2 ∧
    ∀ o, o ≠ op →
      ((NewBlockServerMeasured (NewBlockServerMeasured d.logged.standalone r).1.toBlockServer
          (NewBlockServerMeasured d.logged.standalone r).2).1.invoke req
          ⟨(s, log), (NewBlockServerMeasured d.logged.standalone r).2⟩).2.metrics.count
          ((NewBlockServerMeasured d.logged.standalone r).1.timer o) =
        (NewBlockServerMeasured d.logged.standalone r).2.count
          ((NewBlockServerMeasured d.logged.standalone r).1.timer o) := by
  obtain ⟨hreg, htim⟩ := new_again d.logged.standalone
    (NewBlockServerMeasured d.logged.standalone r).1.toBlockServer r
  obtain ⟨e, he, h1⟩ := hruns
  obtain ⟨e2, he2, hone⟩ := hrec
  have hee : e2 = e := by rw [he] at he2; simpa using he2.symm
  subst hee
  have hinner := invoke_standalone_runs_once (NewBlockServerMeasured d.logged.standalone r).1
    d.logged rfl req op ⟨(s, log), (NewBlockServerMeasured d.logged.standalone r).2⟩ e2 hop he h1
  have houter := invoke_runs_once
    (NewBlockServerMeasured (NewBlockServerMeasured d.logged.standalone r).1.toBlockServer
      (NewBlockServerMeasured d.logged.standalone r).2).1 req op
    ⟨(s, log), (NewBlockServerMeasured d.logged.standalone r).2⟩ e2 hop
    (by rw [htim op]; exact he) h1
  have hdel : (NewBlockServerMeasured
      (NewBlockServerMeasured d.logged.standalone r).1.toBlockServer
      (NewBlockServerMeasured d.logged.standalone r).2).1.delegate.invoke req
      ⟨(s, log), (NewBlockServerMeasured d.logged.standalone r).2⟩ =
      (NewBlockServerMeasured d.logged.standalone r).1.invoke req
        ⟨(s, log), (NewBlockServerMeasured d.logged.standalone r).2⟩ := rfl
  rw [hdel, hinner, htim op, hone, logged_invoke] at houter
  rw [houter]
  refine ⟨hreg, htim, rfl, rfl, ?_, ?_⟩
  · have hent := record_entry (NewBlockServerMeasured d.logged.standalone r).2 _ 1 e2 he
    show (((NewBlockServerMeasured d.logged.standalone r).2.record _ 1).record _ 1).count _ = _
    rw [count_record_self _ _ 1 _ hent, count_record_self _ _ 1 _ he]
  · intro o ho
    have hne : (NewBlockServerMeasured d.logged.standalone r).1.timer op ≠
        (NewBlockServerMeasured d.logged.standalone r).1.timer o :=
      fun h => ho (new_timer_injective d.logged.standalone r op o h).symm
    show (((NewBlockServerMeasured d.logged.standalone r).2.record _ 1).record _ 1).count _ = _
    rw [count_record_ne _ _ _ 1 hne, count_record_ne _ _ _ 1 hne]

/-- A run of the amended C10: two decorators stacked over the fake delegate against a fresh
registry; one Get on the outer decorator returns the bytes of abc and key 7,
the delegate has served and logged this one Get, the Get timer has 2 samples
and the Put timer has none. -/
theorem stacked_call_adds_two_samples_witness :
    ((NewBlockServerMeasured
        (NewBlockServerMeasured fakeServer.logged.standalone emptyRegistry).1.toBlockServer
        (NewBlockServerMeasured fakeServer.logged.standalone emptyRegistry).2).1.invoke
        (.Get ⟨0⟩ ⟨1⟩ ⟨1⟩ ⟨1⟩)
        ⟨(0, []), (NewBlockServerMeasured fakeServer.logged.standalone emptyRegistry).2⟩) =
      (.Get (some [97, 98, 99]) ⟨7⟩ none,
        ⟨(1, [.Get ⟨0⟩ ⟨1⟩ ⟨1⟩ ⟨1⟩]),
          { UseNilMetrics := false
            entries := [("BlockServer.Get", { runs := 1, records := 1, count := 2 }),
              ("BlockServer.Put", { runs := 1, records := 1, count := 0 }),
              ("BlockServer.AddBlockReference", { runs := 1, records := 1, count := 0 }),
              ("BlockServer.RemoveBlockReference", { runs := 1, records := 1, count := 0 }),
              ("BlockServer.ArchiveBlockReferences", { runs := 1, records := 1, count := 0 })] }⟩) ∧
    ((NewBlockServerMeasured
        (NewBlockServerMeasured fakeServer.logged.standalone emptyRegistry).1.toBlockServer
        (NewBlockServerMeasured fakeServer.logged.standalone emptyRegistry).2).1.invoke
        (.Get ⟨0⟩ ⟨1⟩ ⟨1⟩ ⟨1⟩)
        ⟨(0, []), (NewBlockServerMeasured fakeServer.logged.standalone emptyRegistry).2⟩).2.metrics.count
        0 = 0 + 2 :=
  ⟨by decide,
    (stacked_call_adds_two_samples fakeServer emptyRegistry 0 [] (.Get ⟨0⟩ ⟨1⟩ ⟨1⟩ ⟨1⟩) .Get rfl
      ⟨_, rfl, rfl⟩ ⟨_, rfl, rfl⟩).2.2.2.2.1⟩

end Libkbfs
